import Mathlib

/-!
# OverPhish extension — verification of the domain-membership engine

Shallow embedding of the core of the OverPhish browser extension
(`src/background/bloomfilter.js`, `src/background/trie.js`,
`src/background/background.js`) and proofs about the claims of its
specification.

JavaScript 32-bit integer arithmetic is modelled on `Nat` with explicit
`% 2^32`; JS `Map` objects and `chrome.storage` records are modelled as
association lists in insertion order (head = oldest entry), which matches
the iteration order of a JS `Map` and the fact that `Map.set` on an
existing key keeps its position.
-/

namespace OverPhish

/-- The modulus `2^32` of JavaScript 32-bit bitwise arithmetic. -/
def pow32 : Nat := 4294967296

/-! ## Association-list helpers (model of JS `Map` / storage objects)

`setAssoc m k v` models `map.set(k, v)`: it overwrites the value in place
when the key is present (keeping its insertion position) and appends a new
entry otherwise.  `eraseKey m k` models `map.delete(k)`. -/

def setAssoc {κ α : Type} [BEq κ] : List (κ × α) → κ → α → List (κ × α)
  | [], k, v => [(k, v)]
  | p :: m, k, v => if p.1 == k then (k, v) :: m else p :: setAssoc m k v

def eraseKey {κ α : Type} [BEq κ] : List (κ × α) → κ → List (κ × α)
  | [], _ => []
  | p :: m, k => if p.1 == k then eraseKey m k else p :: eraseKey m k

/-! ## MurmurHash3-style mix (`BloomFilter._hash` in `bloomfilter.js`)

```js
_hash(seed, str) {
    let h = seed ^ str.length;
    for (let i = 0; i < str.length; i++) {
        let c = str.charCodeAt(i);
        h = Math.imul(h ^ c, 3432918353);
        h = h << 13 | h >>> 19;
    }
    h = Math.imul(h ^ (h >>> 16), 2246822507);
    h = Math.imul(h ^ (h >>> 13), 3266489909);
    return (h ^= h >>> 16) >>> 0;
}
```

All JS values here are 32-bit patterns; we carry them as `Nat < 2^32`.
`Math.imul` is multiplication mod `2^32` on the bit pattern,
`h << 13 | h >>> 19` is a left rotation by 13, and the final `>>> 0`
reinterprets the pattern as unsigned, which is the identity on patterns.
`charCodeAt` returns the UTF-16 code unit, which for the ASCII hostnames
involved equals `Char.toNat`. -/

def imul (a b : Nat) : Nat := (a * b) % pow32

def rot13 (h : Nat) : Nat := ((h <<< 13) % pow32) ||| (h >>> 19)

def hashStep (h c : Nat) : Nat := rot13 (imul (h ^^^ c) 3432918353)

def hashFinish (h : Nat) : Nat :=
  let h1 := imul (h ^^^ (h >>> 16)) 2246822507
  let h2 := imul (h1 ^^^ (h1 >>> 13)) 3266489909
  h2 ^^^ (h2 >>> 16)

def murmur (seed : Nat) (s : String) : Nat :=
  hashFinish ((s.toList.map Char.toNat).foldl hashStep
    ((seed % pow32) ^^^ (s.length % pow32)))

/-! ## BloomFilter (`bloomfilter.js`)

The `Uint8Array` bit array is modelled as the list of indices that have
been set to 1: `bitArray[i] = 1` iff `i ∈ bits`.  `add` sets the probe
indices; `mightContain` tests them.

```js
add(str) {
    for (let i = 0; i < this.hashCount; i++) {
        const hash = this._hash(i * 0xf1234567, str);
        const index = hash % this.size;
        this.bitArray[index] = 1;
    }
}
mightContain(str) {
    for (let i = 0; i < this.hashCount; i++) { ... if (!this.bitArray[index]) return false; }
    return true;
}
```

The per-probe seed `i * 0xf1234567` is an exact JS number for the `i` in
range; the `^` inside `_hash` reduces it mod `2^32`. -/

structure BloomFilter where
  size : Nat
  hashCount : Nat
  bits : List Nat
  deriving Repr

def BloomFilter.probe (bf : BloomFilter) (i : Nat) (s : String) : Nat :=
  murmur ((i * 0xf1234567) % pow32) s % bf.size

def BloomFilter.probes (bf : BloomFilter) (s : String) : List Nat :=
  (List.range bf.hashCount).map (fun i => bf.probe i s)

def BloomFilter.add (bf : BloomFilter) (s : String) : BloomFilter :=
  { bf with bits := bf.bits ++ bf.probes s }

def BloomFilter.mightContain (bf : BloomFilter) (s : String) : Bool :=
  (bf.probes s).all (fun i => bf.bits.contains i)

/-! ## DomainTrie (`trie.js`)

```js
insert(reversedDomain) {
    let node = this.root;
    for (const char of reversedDomain) {
        node = node.children[char] = node.children[char] || new TrieNode();
    }
    node.isEnd = true;
}
searchSuffix(reversedHostname) {
    let node = this.root;
    for (const char of reversedHostname) {
        if (!node.children[char]) return false;
        node = node.children[char];
        if (node.isEnd) return true;
    }
    return node.isEnd;
}
```

The `children` object is an association from characters to child nodes. -/

inductive TrieNode : Type where
  | mk : List (Char × TrieNode) → Bool → TrieNode
  deriving Repr

def TrieNode.children : TrieNode → List (Char × TrieNode)
  | .mk c _ => c

def TrieNode.isEnd : TrieNode → Bool
  | .mk _ e => e

def TrieNode.empty : TrieNode := .mk [] false

def TrieNode.insert : TrieNode → List Char → TrieNode
  | .mk ch _, [] => .mk ch true
  | .mk ch e, c :: cs =>
      let child := (ch.lookup c).getD TrieNode.empty
      .mk (setAssoc ch c (child.insert cs)) e

def TrieNode.searchSuffix : TrieNode → List Char → Bool
  | t, [] => t.isEnd
  | t, c :: cs =>
      match t.children.lookup c with
      | none => false
      | some child => if child.isEnd then true else child.searchSuffix cs

/-! ## Hostname helpers (`background.js`)

JS string manipulation (`split('.')`, `join('.')`, `toLowerCase`) is
modelled by structural recursion on the character list of the string
(`String` in Lean is a structure over `List Char`; the hostnames involved
are ASCII, where `toLowerCase` is the per-character ASCII lowering). -/

/-- Model of JS `split('.')`: `"".split('.')` is `[""]`, separators at the ends produce
empty groups, exactly as in JS. -/
def splitOnDot : List Char → List (List Char)
  | [] => [[]]
  | c :: cs =>
      if c == '.' then [] :: splitOnDot cs
      else
        match splitOnDot cs with
        | [] => [[c]]
        | g :: gs => (c :: g) :: gs

/-- Model of JS `join('.')`. -/
def joinDots : List (List Char) → List Char
  | [] => []
  | [g] => g
  | g :: gs => g ++ '.' :: joinDots gs

/-- ASCII `toLowerCase` on one character. -/
def toLowerChar (c : Char) : Char :=
  if 'A' ≤ c && c ≤ 'Z' then Char.ofNat (c.toNat + 32) else c

/-- Model of `function reverseDomain(d) { return d.toLowerCase().split('.').reverse().join('.'); }`. -/
def reverseDomain (d : String) : String :=
  String.mk (joinDots ((splitOnDot (d.toList.map toLowerChar)).reverse))

/-- Model of `const COMMON_TLDS = new Set([...])`. -/
def COMMON_TLDS : List (List Char) :=
  ["com", "org", "net", "co.uk", "de", "ru", "cn", "xyz", "top", "info",
   "club", "online", "shop", "site", "store", "tech", "live", "app"].map
    String.toList

/-- The test `/^(?:\d{1,3}\.){3}\d{1,3}$/.test(hostname)`: four groups of one
to three digits separated by dots. -/
def isIPv4 (s : String) : Bool :=
  let ps := splitOnDot s.toList
  ps.length == 4 &&
    ps.all (fun p => 1 ≤ p.length && p.length ≤ 3 && p.all Char.isDigit)

/-- Model of
```js
function getRegistrableDomain(hostname) {
    if (!hostname || /^(?:\d{1,3}\.){3}\d{1,3}$/.test(hostname)) return hostname;
    hostname = hostname.toLowerCase().replace(/^\.+/, '');
    if (!hostname.includes('.')) return hostname;
    const parts = hostname.split('.');
    if (parts.length <= 2) return hostname;
    const tld = parts.slice(-1)[0];
    const sld = parts.slice(-2)[0];
    if (COMMON_TLDS.has(`${sld}.${tld}`)) return parts.slice(-3).join('.');
    return `${sld}.${tld}`;
}
```
`replace(/^\.+/, '')` drops the leading run of dots. -/
def getRegistrableDomain (hostname : String) : String :=
  if hostname == "" || isIPv4 hostname then hostname
  else
    let h := (hostname.toList.map toLowerChar).dropWhile (fun c => c == '.')
    if !(h.contains '.') then String.mk h
    else
      let parts := splitOnDot h
      if parts.length ≤ 2 then String.mk h
      else
        let tld := parts.reverse.headD []
        let sld := (parts.reverse.drop 1).headD []
        if COMMON_TLDS.contains (sld ++ '.' :: tld) then
          String.mk (joinDots (parts.reverse.take 3).reverse)
        else String.mk (sld ++ '.' :: tld)

/-- Model of `const DEFAULT_WHITELIST = new Set([...])`. -/
def DEFAULT_WHITELIST : List String :=
  ["google.com", "www.google.com",
   "youtube.com", "www.youtube.com",
   "facebook.com", "www.facebook.com",
   "twitter.com", "www.twitter.com", "x.com",
   "github.com", "localhost", "127.0.0.1"]

/-- Constant `MAX_CACHE = 10_000` from `background.js`. -/
def MAX_CACHE : Nat := 10000

/-- Model of
```js
function cacheSet(key, value) {
    if (DOMAIN_CACHE.size >= MAX_CACHE) {
        DOMAIN_CACHE.delete(DOMAIN_CACHE.keys().next().value);
    }
    DOMAIN_CACHE.set(key, value);
}
```
`DOMAIN_CACHE.keys().next().value` is the first key in insertion order, the
oldest entry, so the branch drops the head of the list (the cache is
non-empty whenever its size reaches `MAX_CACHE`). -/
def cacheSet (m : List (String × Bool)) (key : String) (value : Bool) :
    List (String × Bool) :=
  if MAX_CACHE ≤ m.length then setAssoc (m.drop 1) key value
  else setAssoc m key value

/-- Model of `getFullWhitelist`: the union `new Set([...DEFAULT_WHITELIST, ...whitelist])`
of the built-in whitelist with the user whitelist from storage.  The
`cachedWhitelist`/`whitelistVersion` pair in `background.js` only memoizes
this union and is invalidated by every mutation, so the model recomputes it. -/
def fullWhitelist (userWhitelist : List String) : List String :=
  DEFAULT_WHITELIST ++ userWhitelist

/-! ## Background service-worker state

The parts of the global state of `background.js` that `isDomainBlocked`
and the message handlers read or write:
session-storage `allow_${hostname}` entries (keyed here by the hostname,
since every access site uses the same `allow_` prefix), the user whitelist
from `chrome.storage.local`, `DOMAIN_CACHE`, the nullable `bloom` and
`trie` globals, and the IndexedDB key set used by `slowCheck`. -/

structure BgState where
  allowOnce : List (String × Nat)
  whitelistUser : List String
  domainCache : List (String × Bool)
  bloom : Option BloomFilter
  trie : Option TrieNode
  dbKeys : List String

/-- The label prefixes probed by the Bloom pre-filter loop:
`for (let i = 1; i <= rev.split('.').length; i++) rev.split('.').slice(0, i).join('.')`. -/
def labelPrefixes (rev : String) : List String :=
  (List.range (splitOnDot rev.toList).length).map
    (fun i => String.mk (joinDots ((splitOnDot rev.toList).take (i + 1))))

/-- Model of `slowCheck(rev)`: it looks up every label prefix of `rev` in the IndexedDB
store (`store.get(suffix)`), where each stored value is `true`; `found`
ends up true iff some label prefix is a stored key. -/
def slowCheck (dbKeys : List String) (rev : String) : Bool :=
  (labelPrefixes rev).any (fun s => dbKeys.contains s)

/-- The verdict computed by the blocklist structures for a hostname: the
Bloom pre-filter over the label prefixes of the reversed hostname
(`bloom?.mightContain(suffix)`, false when `bloom` is null), then — only
when some prefix might be contained — the trie (`USE_TRIE` is `true`, so
`slowCheck` runs only when `trie` is null). -/
def blocklistVerdict (st : BgState) (hostname : String) : Bool :=
  let rev := reverseDomain hostname
  let might := match st.bloom with
    | some bf => (labelPrefixes rev).any (fun s => bf.mightContain s)
    | none => false
  if !might then false
  else match st.trie with
    | some t => t.searchSuffix rev.toList
    | none => slowCheck st.dbKeys rev

/-- Steps of `isDomainBlocked` from the whitelist check on (after the allow-once
check).  Both the `!might` branch and the trie/slow branch cache the value
they return, so they are folded into `blocklistVerdict`. -/
def isDomainBlockedAfterAllow (st : BgState) (hostname : String) :
    Bool × BgState :=
  let wl := fullWhitelist st.whitelistUser
  let reg := getRegistrableDomain hostname
  if wl.contains hostname || (!(reg == "") && wl.contains reg) then
    (false, { st with domainCache := cacheSet st.domainCache hostname false })
  else
    match st.domainCache.lookup hostname with
    | some v => (v, st)
    | none =>
        let blocked := blocklistVerdict st hostname
        (blocked,
         { st with domainCache := cacheSet st.domainCache hostname blocked })

/-- Model of
```js
async function isDomainBlocked(hostname) {
    if (!hostname) return false;
    const allowData = await chrome.storage.session.get(`allow_${hostname}`);
    const allowUntil = allowData[`allow_${hostname}`];
    if (allowUntil) {
        if (Date.now() < allowUntil) return false;
        await chrome.storage.session.remove(`allow_${hostname}`);
    }
    ... // whitelist, cache, bloom, trie — isDomainBlockedAfterAllow
}
```
`now` stands for `Date.now()`.  A stored expiry of `0` is falsy in JS, so
the `if (allowUntil)` block is skipped (the entry is neither honoured nor
purged). -/
def isDomainBlocked (st : BgState) (now : Nat) (hostname : String) :
    Bool × BgState :=
  if hostname == "" then (false, st)
  else
    match st.allowOnce.lookup hostname with
    | some allowUntil =>
        if allowUntil == 0 then isDomainBlockedAfterAllow st hostname
        else if now < allowUntil then (false, st)
        else isDomainBlockedAfterAllow
          { st with allowOnce := eraseKey st.allowOnce hostname } hostname
    | none => isDomainBlockedAfterAllow st hostname

/-! ## Message handlers (`chrome.runtime.onMessage`) -/

/-- The `allowOnce` handler, given the hostname it resolved:
```js
if (!hostname) { sendResponse({ ok: false }); return; }
const until = Date.now() + 5 * 60 * 1000;
await chrome.storage.session.set({ [`allow_${hostname}`]: until });
DOMAIN_CACHE.delete(hostname);
```
A falsy hostname leaves the state untouched. -/
def allowOnceHandler (st : BgState) (now : Nat) (hostname : String) :
    BgState :=
  if hostname == "" then st
  else
    { st with
      allowOnce := setAssoc st.allowOnce hostname (now + 5 * 60 * 1000),
      domainCache := eraseKey st.domainCache hostname }

/-- The `whitelist`/`whitelistManual` handler, given the domain it resolved:
```js
if (!domain) { sendResponse({ ok: false }); return; }
const { whitelist = [] } = await chrome.storage.local.get('whitelist');
const cleanExisting = whitelist.filter(d => !DEFAULT_WHITELIST.has(d));
if (!DEFAULT_WHITELIST.has(domain)) cleanExisting.push(domain);
await chrome.storage.local.set({ whitelist: cleanExisting });
whitelistVersion++; cachedWhitelist = null; DOMAIN_CACHE.clear();
``` -/
def addToWhitelistHandler (st : BgState) (domain : String) : BgState :=
  if domain == "" then st
  else
    let cleanExisting :=
      st.whitelistUser.filter (fun d => !DEFAULT_WHITELIST.contains d)
    let updated :=
      if DEFAULT_WHITELIST.contains domain then cleanExisting
      else cleanExisting ++ [domain]
    { st with whitelistUser := updated, domainCache := [] }

/-- The `removeFromWhitelist` handler:
```js
const updated = whitelist.filter(d => d !== domain && !DEFAULT_WHITELIST.has(d));
await chrome.storage.local.set({ whitelist: updated });
whitelistVersion++; cachedWhitelist = null; DOMAIN_CACHE.clear();
``` -/
def removeFromWhitelistHandler (st : BgState) (domain : String) : BgState :=
  { st with
    whitelistUser := st.whitelistUser.filter
      (fun d => !(d == domain) && !DEFAULT_WHITELIST.contains d),
    domainCache := [] }

/-! ## Fast-structure construction (`buildFastStructures`)

```js
bloom = new BloomFilter(domains.length * 2, 0.01);
domains.forEach(d => bloom.add(d));
trie = new DomainTrie();
domains.forEach(d => trie.insert(d));
```
The constructor is called with `hashCount = 0.01` (the author apparently
confused the parameter with a false-positive rate).  The JS loops
`for (let i = 0; i < this.hashCount; i++)` then execute exactly once, with
`i = 0` (`0 < 0.01` holds, `1 < 0.01` does not), so the effective probe
count of the built filter is `1`. -/

def buildBloom (domains : List String) : BloomFilter :=
  domains.foldl (fun b d => b.add d)
    { size := domains.length * 2, hashCount := 1, bits := [] }

def buildTrie (domains : List String) : TrieNode :=
  domains.foldl (fun t d => t.insert d.toList) TrieNode.empty

/-! ## Blocklist-fetch retry backoff (`fetchBlocklist`)

```js
let fetchRetryDelay = 5 * 60 * 1000;
const MAX_RETRY_DELAY = 60 * 60 * 1000;
...
catch (e) {
    setTimeout(() => fetchBlocklist(true),
        fetchRetryDelay = Math.min(fetchRetryDelay * 2, MAX_RETRY_DELAY));
}
```
The delay passed to `setTimeout` is the value of the assignment
expression, i.e. the already-doubled `fetchRetryDelay`. -/

def INITIAL_RETRY_DELAY : Nat := 5 * 60 * 1000

def MAX_RETRY_DELAY : Nat := 60 * 60 * 1000

/-- The value of the `fetchRetryDelay` variable after `n` consecutive
failures (each failure executes
`fetchRetryDelay = Math.min(fetchRetryDelay * 2, MAX_RETRY_DELAY)`). -/
def fetchRetryDelayAfter : Nat → Nat
  | 0 => INITIAL_RETRY_DELAY
  | n + 1 => min (fetchRetryDelayAfter n * 2) MAX_RETRY_DELAY

/-- The delay `setTimeout` is given on the `n`-th consecutive failure
(0-indexed): the assignment expression's value, i.e. the updated variable. -/
def scheduledRetryDelay (n : Nat) : Nat := fetchRetryDelayAfter (n + 1)

/-! ## Association-list lemmas -/

/-- Setting a key makes it look up to the new value. -/
theorem lookup_setAssoc_self {κ α : Type} [BEq κ] [LawfulBEq κ]
    (m : List (κ × α)) (k : κ) (v : α) :
    (setAssoc m k v).lookup k = some v := by
  induction m with
  | nil => simp [setAssoc, List.lookup]
  | cons p m ih =>
      by_cases hpk : p.1 = k
      · have hb : (p.1 == k) = true := beq_iff_eq.mpr hpk
        simp [setAssoc, hb, List.lookup]
      · have hb : (p.1 == k) = false := by simp [hpk]
        have hb2 : (k == p.1) = false := by simp [Ne.symm hpk]
        simp only [setAssoc, hb, Bool.false_eq_true, if_false, List.lookup,
          hb2]
        exact ih

/-- Erasing a key makes it look up to nothing. -/
theorem lookup_eraseKey_self {κ α : Type} [BEq κ] [LawfulBEq κ]
    (m : List (κ × α)) (k : κ) :
    (eraseKey m k).lookup k = none := by
  induction m with
  | nil => rfl
  | cons p m ih =>
      by_cases hpk : p.1 = k
      · have hb : (p.1 == k) = true := beq_iff_eq.mpr hpk
        simpa [eraseKey, hb] using ih
      · have hb : (p.1 == k) = false := by simp [hpk]
        have hb2 : (k == p.1) = false := by simp [Ne.symm hpk]
        simp only [eraseKey, hb, Bool.false_eq_true, if_false, List.lookup,
          hb2]
        exact ih

/-- Setting a key grows the list by at most one entry. -/
theorem setAssoc_length_le {κ α : Type} [BEq κ]
    (m : List (κ × α)) (k : κ) (v : α) :
    (setAssoc m k v).length ≤ m.length + 1 := by
  induction m with
  | nil => simp [setAssoc]
  | cons p m ih =>
      by_cases hb : (p.1 == k) = true
      · simp [setAssoc, hb]
      · simp only [setAssoc, hb, Bool.false_eq_true, if_false,
          List.length_cons]
        omega

/-- Setting an already-present key does not change the key sequence. -/
theorem map_fst_setAssoc_of_mem {κ α : Type} [BEq κ] [LawfulBEq κ]
    (m : List (κ × α)) (k : κ) (v : α) (hm : (m.lookup k).isSome) :
    (setAssoc m k v).map Prod.fst = m.map Prod.fst := by
  induction m with
  | nil => simp [List.lookup] at hm
  | cons p m ih =>
      by_cases hpk : p.1 = k
      · have hb : (p.1 == k) = true := beq_iff_eq.mpr hpk
        simp [setAssoc, hb, hpk]
      · have hb : (p.1 == k) = false := by simp [hpk]
        have hb2 : (k == p.1) = false := by simp [Ne.symm hpk]
        simp only [List.lookup, hb2] at hm
        simp only [setAssoc, hb, Bool.false_eq_true, if_false, List.map_cons]
        rw [ih hm]

/-! ## Claims -/

/-- C9: `getRegistrableDomain` maps `a.b.co.uk` to `b.co.uk` (multi-label
public suffix `co.uk` is special-cased), `sub.example.com` to
`example.com`, and returns the IPv4 address `192.168.1.1` unchanged. -/
theorem getRegistrableDomain_examples :
    getRegistrableDomain "a.b.co.uk" = "b.co.uk" ∧
    getRegistrableDomain "sub.example.com" = "example.com" ∧
    getRegistrableDomain "192.168.1.1" = "192.168.1.1" := by
  refine ⟨?_, ?_, ?_⟩ <;> decide

/-- C10: for the empty (falsy) hostname, `isDomainBlocked` returns `false`
immediately and leaves the whole state — allow-once store, whitelist,
verdict cache, Bloom filter, trie, and persistent keys — unchanged, for
every state and every clock value. -/
theorem isDomainBlocked_empty_hostname :
    ∀ (st : BgState) (now : Nat), isDomainBlocked st now "" = (false, st) :=
  fun _ _ => rfl

/-- C2 (code bug): after inserting the reversed key `com.evil` into an
empty trie, `searchSuffix` is `true` for `com.evil`, `com.evil.sub` and
`com.evil.sub.deep` as the claim states — but it is also `true` for
`com.evilx`, where the claim (and the spec's suffix semantics) require
`false`: the walk reaches the terminal node after consuming the character
prefix `com.evil` of `com.evilx` and returns `true` without checking that
the match ends at a label boundary. -/
theorem trie_suffix_queries_after_insert :
    (TrieNode.empty.insert ("com.evil".toList)).searchSuffix
      ("com.evil".toList) = true ∧
    (TrieNode.empty.insert ("com.evil".toList)).searchSuffix
      ("com.evil.sub".toList) = true ∧
    (TrieNode.empty.insert ("com.evil".toList)).searchSuffix
      ("com.evil.sub.deep".toList) = true ∧
    (TrieNode.empty.insert ("com.evil".toList)).searchSuffix
      ("com.evilx".toList) = true := by
  refine ⟨?_, ?_, ?_, ?_⟩ <;> decide

/-- C1 (code bug): the Bloom pre-filter stage is not definitive.  With the
blocklist consisting of the single entry `ev.net` (reversed key `net.ev`),
the structures built by `buildFastStructures` (filter of size 2 with one
effective probe, trie over the same key), and the hostname `evil.net`
(reversed `net.evil`): no right-anchored label prefix of `net.evil` —
neither `net` nor `net.evil` — might-contains, yet
`searchSuffix "net.evil"` is `true`, because the inserted key `net.ev` is
a character prefix of `net.evil` that crosses a label boundary.
`isDomainBlocked` consequently returns not-blocked although the ExactSet
holds a (character-prefix) match for the hostname. -/
theorem prefilter_miss_with_trie_match :
    ((labelPrefixes (reverseDomain "evil.net")).any
      (fun s => (buildBloom ["net.ev"]).mightContain s)) = false ∧
    (buildTrie ["net.ev"]).searchSuffix ((reverseDomain "evil.net").toList)
      = true ∧
    (isDomainBlocked
      ⟨[], [], [], some (buildBloom ["net.ev"]), some (buildTrie ["net.ev"]),
       ["net.ev"]⟩ 0 "evil.net").1 = false := by
  refine ⟨?_, ?_, ?_⟩ <;> decide

/-- C6 (counterexample): the first failure does not schedule a retry after
5 minutes.  The delay handed to `setTimeout` is the value of the
assignment `fetchRetryDelay = Math.min(fetchRetryDelay * 2, MAX_RETRY_DELAY)`,
which has already doubled the initial 5 minutes: the first scheduled
retry waits 10 minutes (600000 ms), not 5 (300000 ms). -/
theorem scheduledRetryDelay_first_not_five_minutes :
    scheduledRetryDelay 0 = 600000 ∧ scheduledRetryDelay 0 ≠ 5 * 60 * 1000 := by
  refine ⟨?_, ?_⟩ <;> decide

/-- C6 (amended): the `n`-th consecutive failure (0-indexed) schedules a
retry after `min(5min · 2^(n+1), 1h)`: the delay sequence is 10, 20, 40,
60, 60, … minutes — the stored delay starts at 5 minutes but is doubled
(capped at the 1-hour ceiling) before it is first used. -/
theorem scheduledRetryDelay_closed_form :
    ∀ n : Nat, scheduledRetryDelay n
      = min (INITIAL_RETRY_DELAY * 2 ^ (n + 1)) MAX_RETRY_DELAY := by
  have key : ∀ n : Nat, fetchRetryDelayAfter n
      = min (INITIAL_RETRY_DELAY * 2 ^ n) MAX_RETRY_DELAY := by
    intro n
    induction n with
    | zero => decide
    | succ k ih =>
        rw [fetchRetryDelayAfter, ih, pow_succ]
        unfold INITIAL_RETRY_DELAY MAX_RETRY_DELAY
        generalize (2 : Nat) ^ k = b
        omega
  intro n
  rw [scheduledRetryDelay, key]

/-- C4 (counterexample): the `allowOnce` handler does not empty the verdict
cache.  Starting from a cache holding verdicts for `evil.com` and
`other.com`, allowing `evil.com` once leaves the entry for `other.com` in
place (`DOMAIN_CACHE.delete(hostname)` removes a single key, unlike the
`DOMAIN_CACHE.clear()` the whitelist mutators run). -/
theorem allowOnce_leaves_cache_nonempty :
    (allowOnceHandler
      ⟨[], [], [("evil.com", true), ("other.com", false)], none, none, []⟩
      0 "evil.com").domainCache = [("other.com", false)] ∧
    ([("other.com", false)] : List (String × Bool)) ≠ [] := by
  refine ⟨?_, ?_⟩ <;> decide

/-- C4 (amended): the whitelist mutators — the `whitelist` (add) and
`removeFromWhitelist` handlers — clear the verdict cache in full, while
the `allowOnce` handler removes exactly the entry of the overridden
hostname, leaving the rest of the cache in place. -/
theorem cache_invalidation_of_mutators :
    ∀ (st : BgState) (d h : String) (now : Nat), d ≠ "" → h ≠ "" →
      (addToWhitelistHandler st d).domainCache = [] ∧
      (removeFromWhitelistHandler st d).domainCache = [] ∧
      (allowOnceHandler st now h).domainCache = eraseKey st.domainCache h := by
  intro st d h now hd hh
  refine ⟨?_, rfl, ?_⟩
  · simp [addToWhitelistHandler, hd]
  · simp [allowOnceHandler, hh]

/-- C3: no false negatives.  For every filter instance with a positive
size (a zero-size filter is degenerate: in JS `hash % 0` is `NaN` and the
probe reads `undefined`), once a key has been added, `mightContain` of
that key stays `true` after any number of further `add` calls: `add` only
ever sets bits, and the probe positions of a key depend only on the
filter's size and hash count, which `add` preserves. -/
theorem mightContain_after_add :
    ∀ (bf : BloomFilter) (k : String) (ks : List String), 0 < bf.size →
      (ks.foldl (fun b s => b.add s) (bf.add k)).mightContain k = true := by
  intro bf k ks _
  have probes_foldl : ∀ (ks : List String) (b : BloomFilter),
      (ks.foldl (fun b s => b.add s) b).probes k = b.probes k := by
    intro ks
    induction ks with
    | nil => intro b; rfl
    | cons s ss ih => intro b; exact ih (b.add s)
  have bits_foldl : ∀ (ks : List String) (b : BloomFilter) (i : Nat),
      i ∈ b.bits → i ∈ (ks.foldl (fun b s => b.add s) b).bits := by
    intro ks
    induction ks with
    | nil => intro b i hi; exact hi
    | cons s ss ih =>
        intro b i hi
        exact ih (b.add s) i (by simp [BloomFilter.add, hi])
  rw [BloomFilter.mightContain, probes_foldl ks (bf.add k)]
  rw [List.all_eq_true]
  intro i hi
  have hstart : i ∈ (bf.add k).bits := by
    have : i ∈ bf.probes k := hi
    simp [BloomFilter.add, this]
  exact List.elem_eq_true_of_mem (bits_foldl ks (bf.add k) i hstart)

/-- Witness for C3: a concrete filter of size 2 with one probe, key
`net.ev`, followed by one unrelated `add`. -/
theorem mightContain_after_add_witness :
    0 < (2 : Nat) ∧
    ((["x.y"] : List String).foldl (fun b s => b.add s)
      ((⟨2, 1, []⟩ : BloomFilter).add "net.ev")).mightContain "net.ev"
      = true :=
  ⟨by decide, mightContain_after_add ⟨2, 1, []⟩ "net.ev" ["x.y"] (by decide)⟩

/-- Helper for C5 and C8: when the whitelist guard of `isDomainBlocked`
holds, the post-allow-once part of the check returns `false`. -/
theorem afterAllow_fst_false_of_whitelisted (st : BgState) (h : String)
    (hw : h ∈ fullWhitelist st.whitelistUser ∨
      (¬ getRegistrableDomain h = "" ∧
        getRegistrableDomain h ∈ fullWhitelist st.whitelistUser)) :
    (isDomainBlockedAfterAllow st h).1 = false := by
  simp [isDomainBlockedAfterAllow, hw]

/-- C5: a hostname whose exact form, or whose (non-empty) registrable
domain, is in the combined built-in + user whitelist is never blocked:
the whitelist check precedes the verdict-cache lookup and the blocklist
structures, so the result is `false` for every state — whatever the
Bloom filter, trie, persistent keys or previously cached verdict hold —
and every clock value. -/
theorem isBlocked_false_of_whitelisted :
    ∀ (st : BgState) (now : Nat) (h : String),
      (h ∈ fullWhitelist st.whitelistUser ∨
        (getRegistrableDomain h ≠ "" ∧
          getRegistrableDomain h ∈ fullWhitelist st.whitelistUser)) →
      (isDomainBlocked st now h).1 = false := by
  intro st now h hw
  rw [isDomainBlocked]
  split
  · rfl
  · split
    · split
      · exact afterAllow_fst_false_of_whitelisted _ _ hw
      · split
        · rfl
        · exact afterAllow_fst_false_of_whitelisted _ _ hw
    · exact afterAllow_fst_false_of_whitelisted _ _ hw

/-- Witness for C5: `facebook.com` is in the built-in whitelist; a state
whose trie and Bloom filter both hold the reversed key for it and whose
cache holds a stale `true` verdict still yields `false`. -/
theorem isBlocked_false_of_whitelisted_witness :
    "facebook.com" ∈ fullWhitelist ([] : List String) ∧
    (isDomainBlocked
      ⟨[], [], [("facebook.com", true)], some (buildBloom ["com.facebook"]),
       some (buildTrie ["com.facebook"]), ["com.facebook"]⟩
      0 "facebook.com").1 = false :=
  ⟨by decide,
   isBlocked_false_of_whitelisted
     ⟨[], [], [("facebook.com", true)], some (buildBloom ["com.facebook"]),
      some (buildTrie ["com.facebook"]), ["com.facebook"]⟩
     0 "facebook.com" (Or.inl (by decide))⟩

/-- C7: the verdict cache is bounded and uses insertion-order eviction.
First: `cacheSet` keeps the cache within `MAX_CACHE` entries.  Second: an
insert at capacity evicts the head of the insertion-ordered list — the
oldest-inserted entry — before inserting.  Third: re-storing a verdict
for an already-cached hostname below capacity rewrites the value in place
and leaves the key sequence, hence the eviction position, unchanged
(insertion-order, not LRU). -/
theorem verdict_cache_eviction :
    (∀ (m : List (String × Bool)) (k : String) (v : Bool),
        m.length ≤ MAX_CACHE → (cacheSet m k v).length ≤ MAX_CACHE) ∧
    (∀ (m : List (String × Bool)) (k : String) (v : Bool),
        MAX_CACHE ≤ m.length → cacheSet m k v = setAssoc (m.drop 1) k v) ∧
    (∀ (m : List (String × Bool)) (k : String) (v : Bool),
        (m.lookup k).isSome → m.length < MAX_CACHE →
        (cacheSet m k v).map Prod.fst = m.map Prod.fst) := by
  refine ⟨?_, ?_, ?_⟩
  · intro m k v hlen
    rw [cacheSet]
    by_cases hcap : MAX_CACHE ≤ m.length
    · rw [if_pos hcap]
      have h1 := setAssoc_length_le (m.drop 1) k v
      have h2 : (m.drop 1).length = m.length - 1 := by simp
      have h3 : MAX_CACHE = 10000 := rfl
      omega
    · rw [if_neg hcap]
      have h1 := setAssoc_length_le m k v
      omega
  · intro m k v hcap
    rw [cacheSet, if_pos hcap]
  · intro m k v hmem hlen
    rw [cacheSet, if_neg (by omega)]
    exact map_fst_setAssoc_of_mem m k v hmem

/-- Witness for C7: a cache at capacity (10,000 copies of one entry), an
insert below capacity, and a re-store of a present key. -/
theorem verdict_cache_eviction_witness :
    ((([] : List (String × Bool)).length ≤ MAX_CACHE) ∧
     (cacheSet [] "a" true).length ≤ MAX_CACHE) ∧
    ((MAX_CACHE ≤ (List.replicate 10000 (("a", true) : String × Bool)).length) ∧
     cacheSet (List.replicate 10000 (("a", true) : String × Bool)) "b" false
       = setAssoc
           ((List.replicate 10000 (("a", true) : String × Bool)).drop 1)
           "b" false) ∧
    ((([("a", true)] : List (String × Bool)).lookup "a").isSome ∧
     ([("a", true)] : List (String × Bool)).length < MAX_CACHE ∧
     (cacheSet [("a", true)] "a" false).map Prod.fst
       = ([("a", true)] : List (String × Bool)).map Prod.fst) :=
  ⟨⟨by decide, verdict_cache_eviction.1 [] "a" true (by decide)⟩,
   ⟨by rw [List.length_replicate]; decide,
    verdict_cache_eviction.2.1 _ "b" false
      (by rw [List.length_replicate]; decide)⟩,
   ⟨by decide, by decide,
    verdict_cache_eviction.2.2 [("a", true)] "a" false (by decide)
      (by decide)⟩⟩

/-- C8: after the `allowOnce` handler runs for a (non-empty,
non-whitelisted) hostname, every `isDomainBlocked` call strictly before
the 5-minute expiry returns `false`; a call at or after the expiry
removes the override entry (its lookup in the resulting state is `none`)
and returns the verdict of the blocklist structures.  The handler itself
deleted the hostname's cache entry, so no stale cached verdict can
intervene. -/
theorem allowOnce_ttl :
    ∀ (st : BgState) (h : String) (now0 now1 : Nat),
      h ≠ "" →
      ¬ (h ∈ fullWhitelist st.whitelistUser ∨
          (¬ getRegistrableDomain h = "" ∧
            getRegistrableDomain h ∈ fullWhitelist st.whitelistUser)) →
      (now1 < now0 + 5 * 60 * 1000 →
        (isDomainBlocked (allowOnceHandler st now0 h) now1 h).1 = false) ∧
      (now0 + 5 * 60 * 1000 ≤ now1 →
        (isDomainBlocked (allowOnceHandler st now0 h) now1 h).1
          = blocklistVerdict st h ∧
        (isDomainBlocked (allowOnceHandler st now0 h) now1 h).2.allowOnce.lookup
          h = none) := by
  intro st h now0 now1 hh hw
  have hhb : (h == "") = false := by simp [hh]
  have hst : allowOnceHandler st now0 h
      = { st with
          allowOnce := setAssoc st.allowOnce h (now0 + 5 * 60 * 1000),
          domainCache := eraseKey st.domainCache h } := by
    rw [allowOnceHandler, if_neg (by simp [hh])]
  have hlook :
      (setAssoc st.allowOnce h (now0 + 5 * 60 * 1000)).lookup h
        = some (now0 + 5 * 60 * 1000) :=
    lookup_setAssoc_self st.allowOnce h (now0 + 5 * 60 * 1000)
  have hne0 : (now0 + 5 * 60 * 1000 == 0) = false := by
    simp only [beq_eq_false_iff_ne, ne_eq]
    omega
  constructor
  · intro hlt
    rw [hst, isDomainBlocked]
    simp only [hhb, Bool.false_eq_true, if_false, hlook, hne0, if_pos hlt]
  · intro hge
    have hnlt : ¬ now1 < now0 + 5 * 60 * 1000 := by omega
    rw [hst, isDomainBlocked]
    simp only [hhb, Bool.false_eq_true, if_false, hlook, hne0, hnlt,
      if_false]
    constructor
    · rw [isDomainBlockedAfterAllow]
      simp [hw, lookup_eraseKey_self]
      rfl
    · rw [isDomainBlockedAfterAllow]
      simp [hw, lookup_eraseKey_self]

/-- Witness for C8: state whose structures block `evil.com`; after the
override, a query at time 0 passes and a query at the expiry returns the
structures' verdict with the override purged. -/
theorem allowOnce_ttl_witness :
    ("evil.com" : String) ≠ "" ∧
    ¬ (("evil.com" : String) ∈ fullWhitelist ([] : List String) ∨
        (¬ getRegistrableDomain "evil.com" = "" ∧
          getRegistrableDomain "evil.com" ∈ fullWhitelist ([] : List String))) ∧
    (isDomainBlocked
      (allowOnceHandler
        ⟨[], [], [], some (buildBloom ["com.evil"]),
         some (buildTrie ["com.evil"]), ["com.evil"]⟩ 0 "evil.com")
      0 "evil.com").1 = false ∧
    (isDomainBlocked
      (allowOnceHandler
        ⟨[], [], [], some (buildBloom ["com.evil"]),
         some (buildTrie ["com.evil"]), ["com.evil"]⟩ 0 "evil.com")
      300000 "evil.com").1
      = blocklistVerdict
          ⟨[], [], [], some (buildBloom ["com.evil"]),
           some (buildTrie ["com.evil"]), ["com.evil"]⟩ "evil.com" ∧
    (isDomainBlocked
      (allowOnceHandler
        ⟨[], [], [], some (buildBloom ["com.evil"]),
         some (buildTrie ["com.evil"]), ["com.evil"]⟩ 0 "evil.com")
      300000 "evil.com").2.allowOnce.lookup "evil.com" = none :=
  ⟨by decide, by decide,
   (allowOnce_ttl
     ⟨[], [], [], some (buildBloom ["com.evil"]),
      some (buildTrie ["com.evil"]), ["com.evil"]⟩
     "evil.com" 0 0 (by decide) (by decide)).1 (by decide),
   ((allowOnce_ttl
     ⟨[], [], [], some (buildBloom ["com.evil"]),
      some (buildTrie ["com.evil"]), ["com.evil"]⟩
     "evil.com" 0 300000 (by decide) (by decide)).2 (by decide)).1,
   ((allowOnce_ttl
     ⟨[], [], [], some (buildBloom ["com.evil"]),
      some (buildTrie ["com.evil"]), ["com.evil"]⟩
     "evil.com" 0 300000 (by decide) (by decide)).2 (by decide)).2⟩

/-- Witness for C4 (amended) at a concrete state, a concrete whitelist
domain and a concrete allow-once hostname. -/
theorem cache_invalidation_of_mutators_witness :
    ("x.com" : String) ≠ "" ∧ ("evil.com" : String) ≠ "" ∧
    ((addToWhitelistHandler
        ⟨[], [], [("evil.com", true), ("other.com", false)], none, none, []⟩
        "x.com").domainCache = [] ∧
     (removeFromWhitelistHandler
        ⟨[], [], [("evil.com", true), ("other.com", false)], none, none, []⟩
        "x.com").domainCache = [] ∧
     (allowOnceHandler
        ⟨[], [], [("evil.com", true), ("other.com", false)], none, none, []⟩
        0 "evil.com").domainCache
       = eraseKey [("evil.com", true), ("other.com", false)] "evil.com") :=
  ⟨by decide, by decide,
   cache_invalidation_of_mutators
     ⟨[], [], [("evil.com", true), ("other.com", false)], none, none, []⟩
     "x.com" "evil.com" 0 (by decide) (by decide)⟩

end OverPhish
